import Mathlib

/-!
Verification of the TEASER-style early time-series classification protocol
described by the repository's specification.  The repository's own source is a
notebook that merely calls the external library's `TEASER` object (`fit`,
`predict_proba` with carried `state_info`, `score`, `_compute_harmonic_mean`);
the decision procedure itself is not part of the source tree, so the engine,
checkpoint schedule, safety estimator interface and scoring module below are
modelled from the specification's component contracts and checked against the
specification's testable properties.
-/

namespace EarlyTSC

/-- Modelled from the spec: the error taxonomy of section 7 (the implementing
library code for error raising is not in the source tree).  `invalidSchedule`
is raised at construction time for a malformed checkpoint configuration,
`lengthMismatch` when an input series length is not aligned to the schedule,
`unfitted` on use before fit. -/
inductive TeaserError where
  | invalidSchedule : TeaserError
  | lengthMismatch : TeaserError
  | unfitted : TeaserError
deriving DecidableEq

/-- A class-probability vector, with exact rational entries. -/
abbrev Prob := List ℚ

/-- Modelled from the spec: a time-series instance is abstracted by what the
external ProbabilityProvider returns for it at each partial length (the
provider's own training code is not in the source tree).  For a length `L`,
`x L` is the class-probability vector the provider emits for the first `L`
samples of the instance. -/
abbrev Series := ℕ → Prob

/-- Boolean test that a list of checkpoint lengths is strictly increasing. -/
def strictlyIncreasing : List ℕ → Bool
  | [] => true
  | [_] => true
  | a :: b :: rest => decide (a < b) && strictlyIncreasing (b :: rest)

/-- Modelled from the spec: CheckpointSchedule construction (section 4.1; the
library's handling of `classification_points` is not in the source tree).
Given explicit checkpoint lengths and the full series length, it fails with
`InvalidScheduleError` if there are fewer than 2 checkpoints, if the lengths
are non-increasing, or if any checkpoint exceeds the full length; otherwise it
produces the ordered sequence with the final checkpoint forced to equal the
full length. -/
def mkSchedule (points : List ℕ) (fullLength : ℕ) : Except TeaserError (List ℕ) :=
  if points.length < 2 then .error .invalidSchedule
  else if strictlyIncreasing points = false then .error .invalidSchedule
  else if points.any (fun c => decide (fullLength < c)) then .error .invalidSchedule
  else .ok (points.dropLast ++ [fullLength])

/-- Modelled from the spec: per-instance DecisionState (section 3; the
library's `state_info` rows are not in the source tree): the last checkpoint
visited, the current best probability vector, whether a safe decision has been
emitted, and the length at which it was emitted. -/
structure DecisionState where
  lastCheckpoint : ℕ
  probVector : Prob
  decided : Bool
  decisionLength : ℕ
deriving DecidableEq

/-- The absent/fresh state: no checkpoint visited, no decision yet. -/
def initState : DecisionState := ⟨0, [], false, 0⟩

/-- A fresh batch of decision states for `n` instances. -/
def initStates (n : ℕ) : List DecisionState := List.replicate n initState

/-- Modelled from the spec: the fitted EarlyClassificationEngine (sections 4.2
and 4.3; the library's `TEASER` object is not in the source tree).  `schedule`
is the checkpoint schedule, `est` the per-checkpoint SafetyEstimator predict
function mapping a checkpoint length and a probability vector to safe/unsafe,
and `fitted` records whether `fit` has run. -/
structure Engine where
  schedule : List ℕ
  est : ℕ → Prob → Bool
  fitted : Bool

/-- The last checkpoint of the engine's schedule (the full series length). -/
def finalCheckpoint (e : Engine) : ℕ := e.schedule.getLastD 0

/-- Modelled from the spec: the SafetyEstimator decision at a checkpoint
(section 4.2; the library's one-class-SVM tier is not in the source tree): at
the final checkpoint the decision is forced to safe regardless of the model's
output; at any other checkpoint it is the fitted model's output. -/
def safetyDecision (e : Engine) (L : ℕ) (p : Prob) : Bool :=
  if L = finalCheckpoint e then true else e.est L p

/-- Output of the streaming step for one instance: its current probability
vector, its decision flag, and its updated DecisionState. -/
abbrev Triple := Prob × Bool × DecisionState

/-- Modelled from the spec: the streaming step of the engine for a single
instance at an aligned checkpoint length `L` (section 4.3; the library's
`predict_proba` body is not in the source tree).  A Decided instance is
terminal: the recorded probability vector and state are returned unchanged.
A Pending instance queries the ProbabilityProvider, then the SafetyEstimator;
on safe it commits (decides once) at length `L`, otherwise it stays Pending
with the visit recorded. -/
def stepInstance (e : Engine) (L : ℕ) (x : Series) (s : DecisionState) : Triple :=
  if s.decided then (s.probVector, true, s)
  else
    let p := x L
    if safetyDecision e L p then (p, true, ⟨L, p, true, L⟩)
    else (p, false, ⟨L, p, false, 0⟩)

/-- The DecisionState carried out of one streaming step. -/
def nextState (e : Engine) (L : ℕ) (x : Series) (s : DecisionState) : DecisionState :=
  (stepInstance e L x s).2.2

/-- One streaming step over a batch of instances with their carried states. -/
def stepBatch (e : Engine) (L : ℕ) : List Series → List DecisionState → List Triple
  | [], _ => []
  | _ :: _, [] => []
  | x :: xs, s :: ss => stepInstance e L x s :: stepBatch e L xs ss

/-- The carried states after one batch streaming step. -/
def nextBatch (e : Engine) (L : ℕ) : List Series → List DecisionState → List DecisionState
  | [], _ => []
  | _ :: _, [] => []
  | x :: xs, s :: ss => nextState e L x s :: nextBatch e L xs ss

/-- The checkpoint walk for one instance: iterate the streaming step over a
list of checkpoint lengths, carrying the DecisionState. -/
def walkInstance (e : Engine) (x : Series) : DecisionState → List ℕ → DecisionState
  | s, [] => s
  | s, c :: cs => walkInstance e x (nextState e c x s) cs

/-- The checkpoint walk for a batch: iterate the batch streaming step over a
list of checkpoint lengths, carrying the batch of DecisionStates. -/
def walkBatch (e : Engine) (xs : List Series) : List DecisionState → List ℕ → List DecisionState
  | ss, [] => ss
  | ss, c :: cs => walkBatch e xs (nextBatch e c xs ss) cs

/-- Project a DecisionState to the output triple it yields when re-read. -/
def stateTriple (s : DecisionState) : Triple := (s.probVector, s.decided, s)

/-- Modelled from the spec: the engine's public `predict_proba` operation
(sections 4.3 and 6; the library's `predict_proba` body is not in the source
tree).  It fails with `UnfittedModelError` before fitting and with
`LengthMismatchError` when the input length `L` is not a schedule entry; in
both cases no per-instance result is produced.  With a carried batch of
DecisionStates it performs one streaming step at `L`; with no carried state it
internally simulates the checkpoint walk from the first checkpoint not
exceeding `L` up to `L`, starting from fresh states. -/
def predictProba (e : Engine) (xs : List Series) (L : ℕ)
    (sOpt : Option (List DecisionState)) : Except TeaserError (List Triple) :=
  if e.fitted = false then .error .unfitted
  else if L ∈ e.schedule then
    match sOpt with
    | some ss => .ok (stepBatch e L xs ss)
    | none =>
        .ok ((walkBatch e xs (initStates xs.length)
          (e.schedule.filter (fun c => decide (c ≤ L)))).map stateTriple)
  else .error .lengthMismatch

/-- The streaming protocol as the notebook drives it: starting from a batch of
output triples, repeatedly call `predictProba` at each next checkpoint with
the carried states extracted from the previous call's output, returning the
last call's output. -/
def streamChain (e : Engine) (xs : List Series) :
    List Triple → List ℕ → Except TeaserError (List Triple)
  | outs, [] => .ok outs
  | outs, c :: cs =>
    match predictProba e xs c (some (outs.map (fun t => t.2.2))) with
    | .error err => .error err
    | .ok outs' => streamChain e xs outs' cs

/-- The predicted class label of a probability vector: the index of its first
maximal entry (0 for an empty vector). -/
def argmaxAux : List ℚ → ℕ → ℕ → ℚ → ℕ
  | [], _, best, _ => best
  | q :: rest, i, best, bestVal =>
    if bestVal < q then argmaxAux rest (i + 1) i q
    else argmaxAux rest (i + 1) best bestVal

/-- See `argmaxAux`. -/
def predLabel (p : Prob) : ℕ :=
  match p with
  | [] => 0
  | q :: rest => argmaxAux rest 1 0 q

/-- Fraction of instances whose decided label equals ground truth.  A decision
is a (label, decision length) pair per section 4.4 of the spec. -/
def accuracy (ds : List (ℕ × ℕ)) (truth : List ℕ) : ℚ :=
  (((ds.zip truth).filter (fun q => decide (q.1.1 = q.2))).length : ℚ) / (ds.length : ℚ)

/-- Mean over instances of decision length divided by full length. -/
def earliness (ds : List (ℕ × ℕ)) (fullLength : ℕ) : ℚ :=
  (ds.map (fun d => (d.2 : ℚ) / (fullLength : ℚ))).sum / (ds.length : ℚ)

/-- Modelled from the spec: the harmonic-mean combination of accuracy and
(1 − earliness) used by the ScoringModule (section 4.4; the library's
`_compute_harmonic_mean` body is not in the source tree): it is 0 whenever
the denominator (1 − earliness) + accuracy is 0. -/
def harmonicMean (earl acc : ℚ) : ℚ :=
  if (1 - earl) + acc = 0 then 0
  else 2 * (1 - earl) * acc / ((1 - earl) + acc)

/-- Modelled from the spec: the ScoringModule (section 4.4; the library's
`score` body is not in the source tree).  Given final per-instance decisions
as (label, decision length) pairs, ground truth labels, and the full series
length, it returns the (harmonic_mean, accuracy, earliness) triple.  The
components are computed here in a single self-contained pass (counting
matches with `countP`); the theorems relate them to `accuracy` and
`earliness`. -/
def score (ds : List (ℕ × ℕ)) (truth : List ℕ) (fullLength : ℕ) : ℚ × ℚ × ℚ :=
  let n : ℚ := (ds.length : ℚ)
  let acc : ℚ := (((ds.zip truth).countP (fun q => decide (q.1.1 = q.2))) : ℚ) / n
  let earl : ℚ := (ds.map (fun d => (d.2 : ℚ) / (fullLength : ℚ))).sum / n
  (harmonicMean earl acc, acc, earl)

/-- Extract the (label, decision length) pairs from a batch of final
DecisionStates, as fed to the ScoringModule. -/
def finalDecisions (ss : List DecisionState) : List (ℕ × ℕ) :=
  ss.map (fun s => (predLabel s.probVector, s.decisionLength))

/-! ## Concrete scenario of the specification's section 8

Schedule [50, 100, 150], three instances whose SafetyEstimator decisions
first come out safe at lengths 100, 150 and 50 respectively. -/

/-- A concrete fitted engine for the scenario: the safety model accepts a
probability vector exactly when its top entry is at least 7/10. -/
def engScenario : Engine :=
  ⟨[50, 100, 150], fun _ p => decide ((7 : ℚ) / 10 ≤ p.headD 0), true⟩

/-- Scenario instance 1: unsafe at 50, safe at 100, predicted label 0. -/
def serScenario1 : Series := fun L => if L = 50 then [3/5, 2/5] else [9/10, 1/10]

/-- Scenario instance 2: never safe on its own, forced at the final
checkpoint 150, predicted label 0. -/
def serScenario2 : Series := fun _ => [3/5, 2/5]

/-- Scenario instance 3: safe already at 50, predicted label 0. -/
def serScenario3 : Series := fun _ => [4/5, 1/5]

/-- The three scenario instances as a batch. -/
def scenarioBatch : List Series := [serScenario1, serScenario2, serScenario3]

/-- The final DecisionStates of the scenario after walking the schedule. -/
def scenarioStates : List DecisionState :=
  walkBatch engScenario scenarioBatch (initStates 3) [50, 100, 150]

/-! ## Supporting lemmas -/

/-- The output triple of a streaming step is exactly the projection of the
state it carries out: current vector, decision flag, updated state. -/
lemma stepInstance_eq_stateTriple (e : Engine) (L : ℕ) (x : Series) (s : DecisionState) :
    stepInstance e L x s = stateTriple (nextState e L x s) := by
  unfold nextState stepInstance stateTriple
  by_cases hd : s.decided = true
  · simp [hd]
  · by_cases hs : safetyDecision e L (x L) = true
    · simp [hd, hs]
    · simp [hd, hs]

/-- The per-instance streaming step is idempotent: re-applying it at the same
checkpoint to the state it carried out reproduces the same output triple. -/
lemma stepInstance_next_idem (e : Engine) (L : ℕ) (x : Series) (s : DecisionState) :
    stepInstance e L x (nextState e L x s) = stepInstance e L x s := by
  unfold nextState stepInstance
  by_cases hd : s.decided = true
  · simp [hd]
  · by_cases hs : safetyDecision e L (x L) = true
    · simp [hd, hs]
    · simp [hd, hs]

/-- The states projected out of a batch streaming step are `nextBatch`. -/
lemma stepBatch_map_state (e : Engine) (L : ℕ) :
    ∀ (xs : List Series) (ss : List DecisionState),
      (stepBatch e L xs ss).map (fun t => t.2.2) = nextBatch e L xs ss := by
  intro xs
  induction xs with
  | nil => intro ss; rfl
  | cons x xs ih =>
    intro ss
    cases ss with
    | nil => rfl
    | cons s ss => simp [stepBatch, nextBatch, nextState, ih]

/-- A batch streaming step is the `stateTriple` projection of `nextBatch`. -/
lemma stepBatch_eq_map (e : Engine) (L : ℕ) :
    ∀ (xs : List Series) (ss : List DecisionState),
      stepBatch e L xs ss = (nextBatch e L xs ss).map stateTriple := by
  intro xs
  induction xs with
  | nil => intro ss; rfl
  | cons x xs ih =>
    intro ss
    cases ss with
    | nil => rfl
    | cons s ss => simp [stepBatch, nextBatch, ih, stepInstance_eq_stateTriple]

/-- The batch streaming step is idempotent on carried states. -/
lemma stepBatch_next_idem (e : Engine) (L : ℕ) :
    ∀ (xs : List Series) (ss : List DecisionState),
      stepBatch e L xs (nextBatch e L xs ss) = stepBatch e L xs ss := by
  intro xs
  induction xs with
  | nil => intro ss; rfl
  | cons x xs ih =>
    intro ss
    cases ss with
    | nil => rfl
    | cons s ss => simp [stepBatch, nextBatch, ih, stepInstance_next_idem]

/-- Projecting the carried states back out of `stateTriple`s is the identity. -/
lemma map_stateTriple_state (ss : List DecisionState) :
    (ss.map stateTriple).map (fun t => t.2.2) = ss := by
  induction ss with
  | nil => rfl
  | cons s ss ih => simp [stateTriple, ih]

/-- Chaining validated streaming calls over a list of schedule checkpoints is
the projection of the internal batch walk. -/
lemma streamChain_walk (e : Engine) (xs : List Series) (cs : List ℕ)
    (hf : e.fitted = true) (hcs : ∀ c ∈ cs, c ∈ e.schedule) :
    ∀ ss : List DecisionState,
      streamChain e xs (ss.map stateTriple) cs = .ok ((walkBatch e xs ss cs).map stateTriple) := by
  induction cs with
  | nil => intro ss; rfl
  | cons c cs ih =>
    intro ss
    have hc : c ∈ e.schedule := hcs c (by simp)
    have hcall : predictProba e xs c (some ((ss.map stateTriple).map (fun t => t.2.2))) =
        .ok (stepBatch e c xs ss) := by
      rw [map_stateTriple_state]
      simp [predictProba, hf, hc]
    simp only [streamChain, hcall, stepBatch_eq_map, walkBatch]
    exact ih (fun c' hc' => hcs c' (by simp [hc'])) (nextBatch e c xs ss)

/-- Summing a constant-one map over a list of decisions gives its length. -/
lemma sum_map_one (ds : List (ℕ × ℕ)) :
    (ds.map (fun _ => (1 : ℚ))).sum = (ds.length : ℚ) := by
  induction ds with
  | nil => simp
  | cons d ds ih => simp [ih]; ring

/-- The harmonic mean with earliness 1 is 0, whatever the accuracy. -/
lemma harmonicMean_one (acc : ℚ) : harmonicMean 1 acc = 0 := by
  unfold harmonicMean
  split
  · rfl
  · simp

/-- Replacing the last entry of a strictly increasing list of at least two
checkpoints, all bounded by `full`, with `full` keeps it strictly
increasing. -/
lemma strictlyIncreasing_force (full : ℕ) :
    ∀ (a b : ℕ) (rest : List ℕ),
      strictlyIncreasing (a :: b :: rest) = true →
      (∀ c ∈ a :: b :: rest, c ≤ full) →
      strictlyIncreasing ((a :: b :: rest).dropLast ++ [full]) = true := by
  intro a b rest
  induction rest generalizing a b with
  | nil =>
    intro hsi hle
    rw [strictlyIncreasing, Bool.and_eq_true, decide_eq_true_eq] at hsi
    have hb : b ≤ full := hle b (by simp)
    show strictlyIncreasing [a, full] = true
    rw [strictlyIncreasing, Bool.and_eq_true, decide_eq_true_eq]
    exact ⟨lt_of_lt_of_le hsi.1 hb, rfl⟩
  | cons c rest ih =>
    intro hsi hle
    rw [strictlyIncreasing, Bool.and_eq_true, decide_eq_true_eq] at hsi
    have htail : strictlyIncreasing ((b :: c :: rest).dropLast ++ [full]) = true :=
      ih b c hsi.2 (fun d hd => hle d (by simp at hd ⊢; tauto))
    show strictlyIncreasing (a :: b :: ((c :: rest).dropLast ++ [full])) = true
    rw [strictlyIncreasing, Bool.and_eq_true, decide_eq_true_eq]
    exact ⟨hsi.1, htail⟩

/-! ## Claims -/

/-- C1: Monotonic commitment of the engine.  Once an instance's DecisionState
is Decided (at the checkpoint length recorded in it), every subsequent
streaming step — at any later aligned length — returns the same recorded
probability vector (hence the same decided label) with decision flag true and
leaves the state, including its decision length, untouched; and any further
checkpoint walk leaves the state unchanged, so the recorded probability
vector is never overwritten by a later checkpoint's prediction. -/
theorem decided_state_commitment (e : Engine) (x : Series) (s : DecisionState)
    (hdec : s.decided = true) :
    (∀ L : ℕ, stepInstance e L x s = (s.probVector, true, s)) ∧
    (∀ cs : List ℕ, walkInstance e x s cs = s) := by
  have hstep : ∀ L : ℕ, stepInstance e L x s = (s.probVector, true, s) := by
    intro L; simp [stepInstance, hdec]
  refine ⟨hstep, ?_⟩
  intro cs
  induction cs with
  | nil => rfl
  | cons c cs ih =>
    show walkInstance e x (nextState e c x s) cs = s
    rw [nextState, hstep c]
    exact ih

/-- Witness for C1 at a concrete decided state and engine. -/
theorem decided_state_commitment_witness :
    (⟨50, [1/2, 1/2], true, 50⟩ : DecisionState).decided = true ∧
    stepInstance engScenario 100 serScenario1 ⟨50, [1/2, 1/2], true, 50⟩ =
      ([1/2, 1/2], true, ⟨50, [1/2, 1/2], true, 50⟩) ∧
    walkInstance engScenario serScenario1 ⟨50, [1/2, 1/2], true, 50⟩ [100, 150] =
      ⟨50, [1/2, 1/2], true, 50⟩ :=
  ⟨rfl,
   (decided_state_commitment engScenario serScenario1 ⟨50, [1/2, 1/2], true, 50⟩ rfl).1 100,
   (decided_state_commitment engScenario serScenario1 ⟨50, [1/2, 1/2], true, 50⟩ rfl).2 [100, 150]⟩

/-- C2: Forced decision at the final checkpoint.  At the last checkpoint of
the schedule the safety decision is safe regardless of the SafetyEstimator
model's output (the engine `e`, hence its model `e.est`, is arbitrary), so
after the final checkpoint is processed every instance is Decided, and an
instance not previously Decided is Decided at the last checkpoint's length. -/
theorem final_checkpoint_forces_decision (e : Engine) (x : Series) (s : DecisionState) (p : Prob) :
    safetyDecision e (finalCheckpoint e) p = true ∧
    (nextState e (finalCheckpoint e) x s).decided = true ∧
    (s.decided = false → (nextState e (finalCheckpoint e) x s).decisionLength = finalCheckpoint e) := by
  have hsafe : ∀ q : Prob, safetyDecision e (finalCheckpoint e) q = true := by
    intro q; simp [safetyDecision]
  refine ⟨hsafe p, ?_, ?_⟩
  · unfold nextState stepInstance
    by_cases hd : s.decided = true
    · simp [hd]
    · simp [hd, hsafe]
  · intro hd
    unfold nextState stepInstance
    simp [hd, hsafe]

/-- Witness for C2 at a concrete undecided state: with `engScenario` (whose
model rejects the vector `[1/2, 1/2]` at length 150), the final checkpoint
still decides the instance at length 150. -/
theorem final_checkpoint_forces_decision_witness :
    initState.decided = false ∧
    (nextState engScenario (finalCheckpoint engScenario) serScenario2 initState).decided = true ∧
    (nextState engScenario (finalCheckpoint engScenario) serScenario2 initState).decisionLength =
      finalCheckpoint engScenario :=
  ⟨rfl,
   (final_checkpoint_forces_decision engScenario serScenario2 initState []).2.1,
   (final_checkpoint_forces_decision engScenario serScenario2 initState []).2.2 rfl⟩

/-- C6: Idempotence of the streaming step.  For a fitted engine, any batch of
instances and a checkpoint-aligned input, calling the streaming step again
with the carried DecisionStates from a call with the same input yields the
identical output: same probability vectors, same decision flags, and the same
updated DecisionStates (so in particular two calls from the same carried
state agree, the step being a pure function of its inputs). -/
theorem streaming_step_idempotent (e : Engine) (xs : List Series) (L : ℕ)
    (ss : List DecisionState) (outs : List Triple)
    (h : predictProba e xs L (some ss) = .ok outs) :
    predictProba e xs L (some (outs.map (fun t => t.2.2))) = .ok outs := by
  by_cases hf : e.fitted = false
  · simp [predictProba, hf] at h
  · by_cases hL : L ∈ e.schedule
    · have houts : outs = stepBatch e L xs ss := by
        simp [predictProba, hf, hL] at h
        exact h.symm
      subst houts
      simp [predictProba, hf, hL, stepBatch_map_state, stepBatch_next_idem]
    · simp [predictProba, hf, hL] at h

/-- Witness for C6: the idempotence theorem applied to the concrete scenario
batch at checkpoint 50. -/
theorem streaming_step_idempotent_witness :
    predictProba engScenario scenarioBatch 50 (some (initStates 3)) =
      .ok (stepBatch engScenario 50 scenarioBatch (initStates 3)) ∧
    predictProba engScenario scenarioBatch 50
      (some ((stepBatch engScenario 50 scenarioBatch (initStates 3)).map (fun t => t.2.2))) =
      .ok (stepBatch engScenario 50 scenarioBatch (initStates 3)) :=
  ⟨rfl, streaming_step_idempotent engScenario scenarioBatch 50 (initStates 3) _ rfl⟩

/-- C9: Length alignment and fitting preconditions.  A predict/streaming call
on an unfitted engine fails with `UnfittedModelError`; a call on a fitted
engine whose input length is not a CheckpointSchedule entry fails with
`LengthMismatchError`; in both cases the result is an error, so no
per-instance result is produced. -/
theorem predict_error_conditions (e : Engine) (xs : List Series) (L : ℕ)
    (sOpt : Option (List DecisionState)) :
    (e.fitted = false → predictProba e xs L sOpt = .error .unfitted) ∧
    (e.fitted = true → L ∉ e.schedule → predictProba e xs L sOpt = .error .lengthMismatch) := by
  constructor
  · intro h; simp [predictProba, h]
  · intro hf hL; simp [predictProba, hf, hL]

/-- Witness for C9: an unfitted engine fails with `UnfittedModelError`, and
the fitted scenario engine with schedule [50, 100, 150] fails with
`LengthMismatchError` at the unaligned length 77. -/
theorem predict_error_conditions_witness :
    predictProba ⟨[50, 100, 150], fun _ _ => true, false⟩ [] 50 none = .error .unfitted ∧
    predictProba engScenario [] 77 none = .error .lengthMismatch :=
  ⟨(predict_error_conditions ⟨[50, 100, 150], fun _ _ => true, false⟩ [] 50 none).1 rfl,
   (predict_error_conditions engScenario [] 77 none).2 rfl (by decide)⟩

/-- C3: Harmonic-mean formula of the ScoringModule.  For every scored batch
the harmonic mean equals 2·(1−earliness)·accuracy / ((1−earliness)+accuracy),
and equals 0 when that denominator is 0; and if every instance is decided at
the full length (with a nonempty batch and nonzero full length) then
earliness is 1 and the harmonic mean returned in the score triple is 0,
regardless of accuracy. -/
theorem harmonic_mean_formula_and_degenerate :
    (∀ earl acc : ℚ, harmonicMean earl acc =
        if (1 - earl) + acc = 0 then 0 else 2 * (1 - earl) * acc / ((1 - earl) + acc)) ∧
    (∀ (ds : List (ℕ × ℕ)) (truth : List ℕ) (fullLength : ℕ),
        fullLength ≠ 0 → ds ≠ [] → (∀ d ∈ ds, d.2 = fullLength) →
        earliness ds fullLength = 1 ∧ (score ds truth fullLength).1 = 0) := by
  refine ⟨fun earl acc => rfl, fun ds truth fullLength hfull hne hall => ?_⟩
  have hn : (ds.length : ℚ) ≠ 0 := by
    exact_mod_cast fun h => hne (List.length_eq_zero.mp h)
  have hearl : earliness ds fullLength = 1 := by
    unfold earliness
    have hmap : ds.map (fun d => (d.2 : ℚ) / (fullLength : ℚ)) = ds.map (fun _ => (1 : ℚ)) := by
      apply List.map_congr_left
      intro d hd
      rw [hall d hd]
      exact div_self (by exact_mod_cast hfull)
    rw [hmap, sum_map_one, div_self hn]
  refine ⟨hearl, ?_⟩
  have hfst : (score ds truth fullLength).1 =
      harmonicMean (earliness ds fullLength)
        ((((ds.zip truth).countP (fun q => decide (q.1.1 = q.2))) : ℚ) / (ds.length : ℚ)) := rfl
  rw [hfst, hearl, harmonicMean_one]

/-- Witness for C3: a batch of two decisions both at the full length 150
yields earliness 1 and harmonic mean 0 even with accuracy 1/2. -/
theorem harmonic_mean_formula_and_degenerate_witness :
    (150 : ℕ) ≠ 0 ∧ ([((0 : ℕ), (150 : ℕ)), (1, 150)] : List (ℕ × ℕ)) ≠ [] ∧
    earliness [(0, 150), (1, 150)] 150 = 1 ∧
    (score [(0, 150), (1, 150)] [0, 0] 150).1 = 0 :=
  ⟨by decide, by decide,
   (harmonic_mean_formula_and_degenerate.2 [(0, 150), (1, 150)] [0, 0] 150
     (by decide) (by decide) (by decide)).1,
   (harmonic_mean_formula_and_degenerate.2 [(0, 150), (1, 150)] [0, 0] 150
     (by decide) (by decide) (by decide)).2⟩

/-- C4: `score` returns the triple in the order (harmonic_mean, accuracy,
earliness), where the accuracy component is the fraction of instances whose
decided label equals ground truth (`accuracy`) and the earliness component is
the mean over instances of decision length divided by full length
(`earliness`). -/
theorem score_component_order (ds : List (ℕ × ℕ)) (truth : List ℕ) (fullLength : ℕ) :
    score ds truth fullLength =
      (harmonicMean (earliness ds fullLength) (accuracy ds truth),
       accuracy ds truth, earliness ds fullLength) := by
  unfold score accuracy earliness
  rw [List.countP_eq_length_filter]

/-- C7: Concrete scoring scenario.  With schedule [50, 100, 150] and the
three scenario instances, the SafetyEstimator decisions come out safe first
at lengths 100, 150 and 50 respectively, the predicted labels match ground
truth [0, 1, 0] for instances 1 and 3 only, and the ScoringModule computes
harmonic mean 4/9 (≈ 0.444), accuracy 2/3, earliness (100+150+50)/(150·3) =
2/3 (≈ 0.667). -/
theorem scenario_score :
    scenarioStates.map (fun s => s.decisionLength) = [100, 150, 50] ∧
    finalDecisions scenarioStates = [(0, 100), (0, 150), (0, 50)] ∧
    score (finalDecisions scenarioStates) [0, 1, 0] 150 = (4/9, 2/3, 2/3) := by
  have hstates : scenarioStates =
      [⟨100, [9/10, 1/10], true, 100⟩, ⟨150, [3/5, 2/5], true, 150⟩, ⟨50, [4/5, 1/5], true, 50⟩] := by
    norm_num [scenarioStates, scenarioBatch, walkBatch, nextBatch, nextState, stepInstance,
      safetyDecision, finalCheckpoint, engScenario, serScenario1, serScenario2, serScenario3,
      initStates, initState]
  have hdec : finalDecisions scenarioStates = [(0, 100), (0, 150), (0, 50)] := by
    norm_num [hstates, finalDecisions, predLabel, argmaxAux]
  refine ⟨by norm_num [hstates], hdec, ?_⟩
  rw [hdec]
  norm_num [score, harmonicMean]

/-- C8: CheckpointSchedule construction.  For every configuration that is
accepted, the produced sequence is strictly increasing with its final entry
equal to the declared full series length; and construction fails with
`InvalidScheduleError` exactly when there are fewer than 2 checkpoints, the
lengths are non-increasing, or some checkpoint exceeds the full length. -/
theorem mkSchedule_spec (points : List ℕ) (fullLength : ℕ) :
    (∀ s : List ℕ, mkSchedule points fullLength = .ok s →
        strictlyIncreasing s = true ∧ s.getLast? = some fullLength) ∧
    (mkSchedule points fullLength = .error .invalidSchedule ↔
      (points.length < 2 ∨ strictlyIncreasing points = false ∨
        points.any (fun c => decide (fullLength < c)) = true)) := by
  by_cases h1 : points.length < 2
  · constructor
    · intro s hs; simp [mkSchedule, h1] at hs
    · simp [mkSchedule, h1]
  · by_cases h2 : strictlyIncreasing points = false
    · constructor
      · intro s hs; simp [mkSchedule, h1, h2] at hs
      · simp [mkSchedule, h1, h2]
    · by_cases h3 : points.any (fun c => decide (fullLength < c)) = true
      · constructor
        · intro s hs; simp [mkSchedule, h1, h2, h3] at hs
        · simp [mkSchedule, h1, h2, h3]
      · have hok : mkSchedule points fullLength = .ok (points.dropLast ++ [fullLength]) := by
          simp [mkSchedule, h1, h2, h3]
        constructor
        · intro s hs
          rw [hok] at hs
          cases hs
          have h2' : strictlyIncreasing points = true := by
            cases hsi : strictlyIncreasing points
            · exact absurd hsi h2
            · rfl
          have hle : ∀ c ∈ points, c ≤ fullLength := by
            intro c hc
            by_contra hcle
            exact h3 (List.any_eq_true.mpr ⟨c, hc, by simpa using Nat.lt_of_not_le hcle⟩)
          constructor
          · cases points with
            | nil => exact absurd (by norm_num) h1
            | cons a tl =>
              cases tl with
              | nil => exact absurd (by norm_num) h1
              | cons b rest => exact strictlyIncreasing_force fullLength a b rest h2' hle
          · simp
        · rw [hok]
          simp [h1, h2, h3]

/-- Witness for C8: the notebook-style schedule [50, 100, 150] with full
length 150 is accepted, strictly increasing, and ends in 150; the
non-monotonic configuration [100, 50] is rejected with
`InvalidScheduleError`. -/
theorem mkSchedule_spec_witness :
    mkSchedule [50, 100, 150] 150 = .ok [50, 100, 150] ∧
    strictlyIncreasing [50, 100, 150] = true ∧
    ([50, 100, 150] : List ℕ).getLast? = some 150 ∧
    mkSchedule [100, 50] 150 = .error .invalidSchedule :=
  ⟨rfl,
   ((mkSchedule_spec [50, 100, 150] 150).1 [50, 100, 150] rfl).1,
   ((mkSchedule_spec [50, 100, 150] 150).1 [50, 100, 150] rfl).2,
   (mkSchedule_spec [100, 50] 150).2.mpr (Or.inr (Or.inl (by decide)))⟩

/-- C5: Non-streaming/streaming equivalence.  For a fitted engine and an
input length equal to a schedule entry, the call with no carried
DecisionState returns the same output as chaining validated streaming calls
(each carrying the states of the previous call) over the checkpoints not
exceeding that length, starting from the fresh states. -/
theorem oneshot_eq_streaming_chain (e : Engine) (xs : List Series) (L : ℕ)
    (hf : e.fitted = true) (hL : L ∈ e.schedule) :
    predictProba e xs L none =
      streamChain e xs ((initStates xs.length).map stateTriple)
        (e.schedule.filter (fun c => decide (c ≤ L))) := by
  rw [streamChain_walk e xs (e.schedule.filter (fun c => decide (c ≤ L))) hf
    (fun c hc => (List.mem_filter.mp hc).1) (initStates xs.length)]
  simp [predictProba, hf, hL]

/-- Witness for C5: the equivalence applied to the concrete scenario engine
and batch at the schedule entry 100. -/
theorem oneshot_eq_streaming_chain_witness :
    engScenario.fitted = true ∧ 100 ∈ engScenario.schedule ∧
    predictProba engScenario scenarioBatch 100 none =
      streamChain engScenario scenarioBatch
        ((initStates scenarioBatch.length).map stateTriple)
        (engScenario.schedule.filter (fun c => decide (c ≤ 100))) :=
  ⟨rfl, by decide,
   oneshot_eq_streaming_chain engScenario scenarioBatch 100 rfl (by decide)⟩

end EarlyTSC
